import Mathlib

/-!
# Verification of the `hashicorpreleases` Go client

Shallow embedding of the `hashicorpreleases` package: a client library for
the HashiCorp Releases API.  The embedding follows the Go source:

* `hashicorpreleases.go` — `Client`, `NewClient`, `sendRequest`,
  `setJSONHeader`, `errorResponse`;
* the releases file — `ReleaseOptions`, `Release`, `Build`, `Status`,
  `GetReleases`, `GetReleaseMetadata`, `handleReleaseOptions`;
* the products file — `GetProducts`.

Go-specific machinery is modelled explicitly:

* JSON documents are an inductive `Json`; an HTTP body that is not valid
  JSON text is represented as `none : Option Json`.
* `encoding/json` struct decoding is modelled field by field, including the
  exact struct tags of the source (in particular the source's tag
  `url_sorce_repository`) and the case-insensitive fallback match that
  `encoding/json` applies to untagged fields.
* `net/url` is modelled by `urlParse` / `Values` / `Values.encode` /
  `URL.render`, covering exactly the behaviour the client exercises:
  rejection of control bytes, splitting off the raw query, `Values.Add`,
  and `Values.Encode` (percent-escaping plus byte-wise sorted keys).
* The HTTP transport is a function `Request → Except String HTTPResponse`
  supplied by the environment; each endpoint returns, next to its result,
  the request it actually sent (`none` when no network call was made).
* A Go runtime panic (the nil-pointer dereference reachable in
  `handleReleaseOptions`) is the `panicked` constructor of `GoResult`.
-/

namespace HashicorpReleases

/-- A JSON document.  Numbers are restricted to integers: the client only
ever decodes integer-valued numeric fields (`code`), so fractional literals
never occur in the behaviours modelled here. -/
inductive Json where
  | null
  | bool (b : Bool)
  | num (n : Int)
  | str (s : String)
  | arr (elems : List Json)
  | obj (fields : List (String × Json))

instance {ε α : Type} [DecidableEq ε] [DecidableEq α] : DecidableEq (Except ε α) := fun x y =>
  match x, y with
  | .error a, .error b => decidable_of_iff (a = b) (by simp)
  | .error _, .ok _ => isFalse (by simp)
  | .ok _, .error _ => isFalse (by simp)
  | .ok a, .ok b => decidable_of_iff (a = b) (by simp)

/-! ## Bytes and percent-escaping (`net/url` model)

Go works on the UTF-8 bytes of its strings; the byte sequence of a string
is recovered here from its characters. -/

/-- The UTF-8 encoding of a code point, as numbers below 256. -/
def utf8Bytes (c : Nat) : List Nat :=
  if c < 0x80 then [c]
  else if c < 0x800 then [0xC0 + c / 64, 0x80 + c % 64]
  else if c < 0x10000 then [0xE0 + c / 4096, 0x80 + c / 64 % 64, 0x80 + c % 64]
  else [0xF0 + c / 262144, 0x80 + c / 4096 % 64, 0x80 + c / 64 % 64, 0x80 + c % 64]

/-- The UTF-8 bytes of a string. -/
def strBytes (s : String) : List Nat :=
  (s.data.map (fun c => utf8Bytes c.toNat)).flatten

/-- Go's `stringContainsCTLByte` from `net/url`: does the string contain an
ASCII control byte?  (Continuation bytes of multi-byte characters are
`≥ 0x80`, so checking bytes and checking characters agree.) -/
def containsCTLByte (s : String) : Bool :=
  (strBytes s).any (fun b => b < 32 || b == 127)

/-- Unreserved bytes, kept verbatim by `url.QueryEscape`:
`A-Z`, `a-z`, `0-9`, `-`, `.`, `_`, `~`. -/
def isUnreservedByte (b : Nat) : Bool :=
  (65 ≤ b && b ≤ 90) || (97 ≤ b && b ≤ 122) || (48 ≤ b && b ≤ 57) ||
    b == 45 || b == 46 || b == 95 || b == 126

/-- Upper-case hexadecimal digit, as used by `url.QueryEscape`. -/
def upperHexDigit (n : Nat) : Char :=
  Char.ofNat (if n < 10 then 48 + n else if n < 16 then 55 + n else 48)

/-- Model of `url.QueryEscape` on one byte (the argument is always below 256): an
unreserved byte stays itself, a space becomes `+`, anything else becomes
`%XX` with upper-case hex digits. -/
def escapeByte (b : Nat) : List Char :=
  if isUnreservedByte b then [Char.ofNat b]
  else if b == 32 then ['+']
  else ['%', upperHexDigit (b / 16 % 16), upperHexDigit (b % 16)]

/-- Model of `url.QueryEscape`: escape every UTF-8 byte of the string. -/
def queryEscape (s : String) : String :=
  String.mk ((strBytes s).map escapeByte).flatten

/-- Byte-wise lexicographic order on byte lists — how `sort.Strings`
compares Go strings. -/
def bytesLt : List Nat → List Nat → Bool
  | [], [] => false
  | [], _ :: _ => true
  | _ :: _, [] => false
  | a :: as, b :: bs => if a < b then true else if b < a then false else bytesLt as bs

/-- The order used by `sort.Strings`: byte-wise lexicographic comparison. -/
def stringLt (a b : String) : Bool := bytesLt (strBytes a) (strBytes b)

/-! ## `url.Values`

`url.Values` is a `map[string][]string`; the client adds each key at most
once on top of the (always empty) parsed query, so an ordered list of
key/value pairs is an equivalent model.  `Values.Encode` sorts by key;
the insertion sort below is stable, matching Go's per-key value order. -/

/-- Model of `url.Values`, as the ordered list of added key/value pairs. -/
abbrev Values := List (String × String)

/-- Model of `url.Values.Add`: append the pair. -/
def Values.add (v : Values) (key value : String) : Values := v ++ [(key, value)]

/-- Insert a pair into a key-sorted list, after any equal keys. -/
def insertPair (kv : String × String) : List (String × String) → List (String × String)
  | [] => [kv]
  | x :: xs => if stringLt kv.1 x.1 then kv :: x :: xs else x :: insertPair kv xs

/-- Stable sort by key (insertion sort, earlier pairs inserted first). -/
def sortByKey (l : List (String × String)) : List (String × String) :=
  l.foldl (fun acc kv => insertPair kv acc) []

/-- Model of `url.Values.Encode`: keys in sorted order, each pair rendered as
`escape(key)=escape(value)`, pairs joined with `&`. -/
def Values.encode (v : Values) : String :=
  String.intercalate "&" ((sortByKey v).map (fun kv => queryEscape kv.1 ++ "=" ++ queryEscape kv.2))

/-! ## `url.URL` -/

/-- A parsed URL, reduced to what the client reads back: the part before
the query (scheme, host and path, kept as an opaque prefix) and the raw
query.  The client never touches fragments or user info. -/
structure URL where
  beforeQuery : String
  rawQuery : String
deriving DecidableEq

/-- Split a character list at the first occurrence of `sep`:
the prefix, and — when `sep` occurs — what follows it. -/
def splitAtFirstChar (sep : Char) : List Char → List Char × Option (List Char)
  | [] => ([], none)
  | c :: cs =>
    if c = sep then ([], some cs)
    else
      let r := splitAtFirstChar sep cs
      (c :: r.1, r.2)

/-- Split a character list on every occurrence of `sep`. -/
def splitOnCharAux (sep : Char) : List Char → List Char → List (List Char)
  | [], acc => [acc.reverse]
  | c :: cs, acc =>
    if c = sep then acc.reverse :: splitOnCharAux sep cs []
    else splitOnCharAux sep cs (c :: acc)

/-- All segments of a character list between occurrences of `sep`. -/
def splitOnChar (sep : Char) (l : List Char) : List (List Char) :=
  splitOnCharAux sep l []

/-- Model of `url.Parse`, restricted to what the client exercises: a URL
containing an ASCII control byte is rejected (Go's
`net/url: invalid control character in URL`; the `%q` quoting of the URL
inside Go's error text is elided), otherwise the raw query is split off at
the first `?`.  Finer scheme/host/path validation is not modelled — the
client never constructs URLs that exercise it differently. -/
def urlParse (s : String) : Except String URL :=
  if containsCTLByte s then
    .error ("parse " ++ s ++ ": net/url: invalid control character in URL")
  else
    let r := splitAtFirstChar '?' s.data
    .ok ⟨String.mk r.1, String.mk (r.2.getD [])⟩

/-- Model of `url.URL.Query` / `url.ParseQuery`: split the raw query on
`&`, then each segment at its first `=`.  Percent-decoding is elided: the
client only ever parses raw queries it has just produced from an empty
one. -/
def parseQuery (s : String) : Values :=
  if s = "" then []
  else
    (splitOnChar '&' s.data).filterMap (fun part =>
      match part with
      | [] => none
      | _ =>
        let r := splitAtFirstChar '=' part
        some (String.mk r.1, String.mk (r.2.getD [])))

/-- Model of `url.URL.String` for the URLs the client builds: the prefix, then the
raw query after a `?` when the query is non-empty. -/
def URL.render (u : URL) : String :=
  u.beforeQuery ++ (if u.rawQuery = "" then "" else "?" ++ u.rawQuery)

/-! ## Domain types (verbatim from the source) -/

/-- Struct `ReleaseOptions` from the source: pagination/filter options for `GetReleases`.
`Limit` is a Go `int`, modelled as an unbounded integer (the client never
computes with it beyond stringification). -/
structure ReleaseOptions where
  Limit : Int
  After : String
  LicenseClass : String
deriving DecidableEq

/-- Struct `Build` from the source: one released artifact. -/
structure Build where
  Architecture : String
  OperatingSystem : String
  Unsupported : Bool
  URL : String
deriving DecidableEq

/-- Struct `Status` from the source: release lifecycle status.  `TimestampUpdated` is a Go
`time.Time`, modelled as its RFC3339 rendering, with the zero time
rendered as the empty string. -/
structure Status where
  Message : String
  State : String
  TimestampUpdated : String
deriving DecidableEq

/-- Struct `Release` from the source: one release and its metadata. -/
structure Release where
  Builds : List Build
  DockerNameTag : String
  IsPrerelease : Bool
  LicenseClass : String
  Name : String
  Status : Status
  TimestampCreated : String
  TimestampUpdated : String
  BlogpostURL : String
  ChangelogURL : String
  DockerhubURL : String
  AmazonECRURL : String
  LicenseURL : String
  WebsiteURL : String
  ReleaseNotesURL : String
  ShaSumsURL : String
  ShaSumsSignaturesURL : List String
  SourceRepositoryURL : String
  Version : String
deriving DecidableEq

/-- Struct `errorResponse` from the source: the error body shape `{code:int, message:string}`. -/
structure errorResponse where
  Status : Int
  Message : String
deriving DecidableEq

/-! ## `encoding/json` struct decoding

Decoding into a struct succeeds on a JSON object or `null` (which leaves
the zero value in place) and fails on any other document.  Within an
object, a key feeds a field when it equals the field's tag — or, for
untagged fields, the field's name — exactly, or case-insensitively when no
exact match exists; an absent or `null` key leaves the field's zero value;
a type mismatch fails the decode.  Keys are assumed distinct, as in every
body the remote API serves. -/

/-- ASCII lower-casing of one character (the fold `encoding/json` applies;
all tags and keys involved are ASCII). -/
def asciiLower (c : Char) : Char :=
  if 65 ≤ c.toNat && c.toNat ≤ 90 then Char.ofNat (c.toNat + 32) else c

/-- Case-insensitive equality of (ASCII) strings. -/
def foldEq (a b : String) : Bool :=
  a.data.map asciiLower == b.data.map asciiLower

/-- Find the object key feeding the field with tag (or name) `tag`:
exact match first, case-insensitive fallback second. -/
def lookupField (fields : List (String × Json)) (tag : String) : Option Json :=
  match fields.find? (fun kv => kv.1 == tag) with
  | some kv => some kv.2
  | none => (fields.find? (fun kv => foldEq kv.1 tag)).map (fun kv => kv.2)

/-- Decode a string-typed struct field. -/
def getStringField (fields : List (String × Json)) (tag : String) : Except String String :=
  match lookupField fields tag with
  | none => .ok ""
  | some .null => .ok ""
  | some (.str s) => .ok s
  | some _ => .error ("json: cannot unmarshal value into field " ++ tag ++ " of type string")

/-- Decode a bool-typed struct field. -/
def getBoolField (fields : List (String × Json)) (tag : String) : Except String Bool :=
  match lookupField fields tag with
  | none => .ok false
  | some .null => .ok false
  | some (.bool b) => .ok b
  | some _ => .error ("json: cannot unmarshal value into field " ++ tag ++ " of type bool")

/-- Decode an int-typed struct field. -/
def getIntField (fields : List (String × Json)) (tag : String) : Except String Int :=
  match lookupField fields tag with
  | none => .ok 0
  | some .null => .ok 0
  | some (.num n) => .ok n
  | some _ => .error ("json: cannot unmarshal value into field " ++ tag ++ " of type int")

/-- Decode one element of a `[]string` field. -/
def asString : Json → Except String String
  | .str s => .ok s
  | _ => .error "json: cannot unmarshal value into type string"

/-- Decode a `[]string`-typed struct field. -/
def getStringListField (fields : List (String × Json)) (tag : String) :
    Except String (List String) :=
  match lookupField fields tag with
  | none => .ok []
  | some .null => .ok []
  | some (.arr xs) => xs.mapM asString
  | some _ => .error ("json: cannot unmarshal value into field " ++ tag ++ " of type []string")

/-- Decode a `time.Time`-typed struct field from its RFC3339 string.
Rejection of strings that are not RFC3339 timestamps is elided: the
remote API only serves well-formed timestamps. -/
def getTimeField (fields : List (String × Json)) (tag : String) : Except String String :=
  match lookupField fields tag with
  | none => .ok ""
  | some .null => .ok ""
  | some (.str s) => .ok s
  | some _ => .error ("json: cannot unmarshal value into field " ++ tag ++ " of type time.Time")

/-- Decode `errorResponse`; its fields carry tags `code` and `message`. -/
def decodeErrorResponse : Json → Except String errorResponse
  | .null => .ok ⟨0, ""⟩
  | .obj fields => do
    let code ← getIntField fields "code"
    let message ← getStringField fields "message"
    .ok ⟨code, message⟩
  | _ => .error "json: cannot unmarshal value into type errorResponse"

/-- Decode `Build`; tags `arch`, `os`, `unsupported`, `url`. -/
def decodeBuild : Json → Except String Build
  | .null => .ok ⟨"", "", false, ""⟩
  | .obj fields => do
    let architecture ← getStringField fields "arch"
    let operatingSystem ← getStringField fields "os"
    let unsupported ← getBoolField fields "unsupported"
    let url ← getStringField fields "url"
    .ok ⟨architecture, operatingSystem, unsupported, url⟩
  | _ => .error "json: cannot unmarshal value into type Build"

/-- Decode `Status`.  The source declares `Status` without any json tags,
so each field is matched by its Go field name (`Message`, `State`,
`TimestampUpdated`), exactly or case-insensitively. -/
def decodeStatus : Json → Except String Status
  | .null => .ok ⟨"", "", ""⟩
  | .obj fields => do
    let message ← getStringField fields "Message"
    let state ← getStringField fields "State"
    let timestampUpdated ← getTimeField fields "TimestampUpdated"
    .ok ⟨message, state, timestampUpdated⟩
  | _ => .error "json: cannot unmarshal value into type Status"

/-- Decode a `Status`-typed struct field. -/
def getStatusField (fields : List (String × Json)) (tag : String) : Except String Status :=
  match lookupField fields tag with
  | none => .ok ⟨"", "", ""⟩
  | some j => decodeStatus j

/-- Decode a `[]Build`-typed struct field. -/
def getBuildsField (fields : List (String × Json)) (tag : String) :
    Except String (List Build) :=
  match lookupField fields tag with
  | none => .ok []
  | some .null => .ok []
  | some (.arr xs) => xs.mapM decodeBuild
  | some _ => .error ("json: cannot unmarshal value into field " ++ tag ++ " of type []Build")

/-- Decode `Release`, with the exact tags of the source — including the
source's tag `url_sorce_repository` on the `SourceRepositoryURL` field. -/
def decodeRelease : Json → Except String Release
  | .null => .ok ⟨[], "", false, "", "", ⟨"", "", ""⟩, "", "", "", "", "", "", "", "", "", "", [], "", ""⟩
  | .obj fields => do
    let builds ← getBuildsField fields "builds"
    let dockerNameTag ← getStringField fields "docker_name_tag"
    let isPrerelease ← getBoolField fields "is_prerelease"
    let licenseClass ← getStringField fields "license_class"
    let name ← getStringField fields "name"
    let status ← getStatusField fields "status"
    let timestampCreated ← getStringField fields "timestamp_created"
    let timestampUpdated ← getStringField fields "timestamp_updated"
    let blogpostURL ← getStringField fields "url_blogpost"
    let changelogURL ← getStringField fields "url_changelog"
    let dockerhubURL ← getStringField fields "url_docker_registry_dockerhub"
    let amazonECRURL ← getStringField fields "url_docker_registry_ecr"
    let licenseURL ← getStringField fields "url_license"
    let websiteURL ← getStringField fields "url_project_website"
    let releaseNotesURL ← getStringField fields "url_release_notes"
    let shaSumsURL ← getStringField fields "url_shasums"
    let shaSumsSignaturesURL ← getStringListField fields "url_shasums_signatures"
    let sourceRepositoryURL ← getStringField fields "url_sorce_repository"
    let version ← getStringField fields "version"
    .ok ⟨builds, dockerNameTag, isPrerelease, licenseClass, name, status,
      timestampCreated, timestampUpdated, blogpostURL, changelogURL, dockerhubURL,
      amazonECRURL, licenseURL, websiteURL, releaseNotesURL, shaSumsURL,
      shaSumsSignaturesURL, sourceRepositoryURL, version⟩
  | _ => .error "json: cannot unmarshal value into type Release"

/-- Decode `ReleasesResponse` (`[]Release`); decoding `null` leaves the
preallocated empty slice. -/
def decodeReleases : Json → Except String (List Release)
  | .null => .ok []
  | .arr xs => xs.mapM decodeRelease
  | _ => .error "json: cannot unmarshal value into type ReleasesResponse"

/-- Decode `ProductResponse` (`[]string`). -/
def decodeProducts : Json → Except String (List String)
  | .null => .ok []
  | .arr xs => xs.mapM asString
  | _ => .error "json: cannot unmarshal value into type ProductResponse"

/-! ## HTTP model -/

/-- An HTTP request as the client builds it: method, full URL, headers.
The client sends no request bodies. -/
structure Request where
  method : String
  url : String
  headers : List (String × String)
deriving DecidableEq

/-- Model of `http.Header.Set`: replace any previous value for the key. -/
def Request.setHeader (r : Request) (key value : String) : Request :=
  { r with headers := r.headers.filter (fun kv => kv.1 ≠ key) ++ [(key, value)] }

/-- Function `setJSONHeader` from the source. -/
def setJSONHeader (r : Request) : Request :=
  r.setHeader "Content-Type" "application/json; charset=utf-8"

/-- Model of `http.NewRequest("GET", url, nil)`: parses the URL, failing
exactly when `url.Parse` fails. -/
def httpNewRequest (method urlStr : String) : Except String Request :=
  match urlParse urlStr with
  | .error e => .error e
  | .ok _ => .ok ⟨method, urlStr, []⟩

/-- An HTTP response: status code and body.  `none` models a body that is
not valid JSON text. -/
structure HTTPResponse where
  StatusCode : Nat
  body : Option Json

/-- The network: what `HTTPClient.Do` produces for a request — a transport
error or a response. -/
abbrev Transport := Request → Except String HTTPResponse

/-- Run a JSON decoder on a response body; a body that is not valid JSON
text fails with the parser's error. -/
def decodeBody {α : Type} (d : Json → Except String α) : Option Json → Except String α
  | none => .error "invalid character looking for beginning of value"
  | some j => d j

/-- Function `sendRequest` from the source: set the `Accept` header, execute the
request, and

* on a transport error, return it unchanged;
* on a non-200 status, try to decode the body as `errorResponse` and fail
  with `error: <message>; status code: <code>` when that succeeds, with
  `unknown error, status code: <code>` when it fails;
* on a 200 status, decode the body into the destination (`d`), wrapping a
  decode failure as `error decoding response body: <err>`.

Next to the outcome it returns the request as actually sent. -/
def sendRequest {α : Type} (d : Json → Except String α) (respond : Transport)
    (req : Request) : Except String α × Request :=
  let req := req.setHeader "Accept" "application/json; charset=utf-8"
  match respond req with
  | .error e => (.error e, req)
  | .ok res =>
    if res.StatusCode ≠ 200 then
      match decodeBody decodeErrorResponse res.body with
      | .ok errRes =>
        (.error ("error: " ++ errRes.Message ++ "; status code: " ++ toString res.StatusCode), req)
      | .error _ =>
        (.error ("unknown error, status code: " ++ toString res.StatusCode), req)
    else
      match decodeBody d res.body with
      | .ok a => (.ok a, req)
      | .error e => (.error ("error decoding response body: " ++ e), req)

/-! ## Client construction -/

/-- The `http.Client` configuration the client creates: only the timeout
(nanoseconds, Go's `time.Duration` unit). -/
structure HTTPClientConfig where
  Timeout : Nat
deriving DecidableEq

/-- Struct `Client` from the source. -/
structure Client where
  URL : String
  HTTPClient : HTTPClientConfig
deriving DecidableEq

/-- Function `NewClient` from the source; the environment is passed in as the
lookup function `getenv` (Go's `os.Getenv` returns `""` for an absent
variable). -/
def NewClient (getenv : String → String) : Client :=
  let url := getenv "RELEASES_URL"
  let url := if url = "" then "https://api.releases.hashicorp.com/v1" else url
  { URL := url, HTTPClient := { Timeout := 60000000000 } }

/-! ## Endpoint operations -/

/-- Outcome of a Go function that can return a value, return an error, or
panic at runtime. -/
inductive GoResult (α : Type) where
  | ok (value : α)
  | err (msg : String)
  | panicked (msg : String)
deriving DecidableEq

/-- Function `handleReleaseOptions` from the source.  `options` is the
`*ReleaseOptions` argument (`none` = nil pointer); `now` is
`time.Now().UTC().Format(time.RFC3339)`.  The source reads
`options.LicenseClass` outside its nil guard, so a nil `options` reaches a
nil-pointer dereference — the `panicked` outcome — once `url.Parse` has
succeeded. -/
def handleReleaseOptions (u : String) (options : Option ReleaseOptions) (now : String) :
    GoResult String :=
  let limit : Int := 10
  let after : String := now
  let limit := match options with
    | some o => if o.Limit ≠ 0 then o.Limit else limit
    | none => limit
  let after := match options with
    | some o => if o.After ≠ "" then o.After else after
    | none => after
  match urlParse u with
  | .error e => .err e
  | .ok urlA =>
    let values := parseQuery urlA.rawQuery
    let values := values.add "limit" (toString limit)
    let values := values.add "after" after
    match options with
    | none => .panicked "runtime error: invalid memory address or nil pointer dereference"
    | some o =>
      let values := if o.LicenseClass ≠ "" then values.add "license_class" o.LicenseClass else values
      .ok (URL.render { urlA with rawQuery := Values.encode values })

/-- Function `GetReleases` from the source.  Returns the outcome and the request
actually sent (`none` when the call failed, or panicked, before reaching
the network). -/
def GetReleases (c : Client) (product : String) (options : Option ReleaseOptions)
    (now : String) (respond : Transport) : GoResult (List Release) × Option Request :=
  let u := c.URL ++ "/releases/" ++ product
  match handleReleaseOptions u options now with
  | .panicked m => (.panicked m, none)
  | .err e => (.err e, none)
  | .ok fullURL =>
    match httpNewRequest "GET" fullURL with
    | .error e => (.err e, none)
    | .ok req =>
      let req := setJSONHeader req
      match sendRequest decodeReleases respond req with
      | (.error e, sent) => (.err e, some sent)
      | (.ok res, sent) => (.ok res, some sent)

/-- Function `GetReleaseMetadata` from the source. -/
def GetReleaseMetadata (c : Client) (product version : String) (respond : Transport) :
    GoResult Release × Option Request :=
  match httpNewRequest "GET" (c.URL ++ "/releases/" ++ product ++ "/" ++ version) with
  | .error e => (.err e, none)
  | .ok req =>
    let req := setJSONHeader req
    match sendRequest decodeRelease respond req with
    | (.error e, sent) => (.err e, some sent)
    | (.ok res, sent) => (.ok res, some sent)

/-- Function `GetProducts` from the source. -/
def GetProducts (c : Client) (respond : Transport) :
    GoResult (List String) × Option Request :=
  match httpNewRequest "GET" (c.URL ++ "/products") with
  | .error e => (.err e, none)
  | .ok req =>
    let req := setJSONHeader req
    match sendRequest decodeProducts respond req with
    | (.error e, sent) => (.err e, some sent)
    | (.ok res, sent) => (.ok res, some sent)

/-! ## Helper lemmas -/

/-- One `key=value` segment of an encoded query. -/
def queryPair (k v : String) : String :=
  queryEscape k ++ "=" ++ queryEscape v

theorem ne_empty_of_left (x y : String) (h : x ≠ "") : x ++ y ≠ "" := by
  intro hc
  apply h
  apply String.ext
  have hd := congrArg String.data hc
  rw [String.data_append] at hd
  rcases List.append_eq_nil.mp hd with ⟨hx, _⟩
  exact hx

theorem splitAtFirstChar_of_not_mem (sep : Char) (l : List Char) (h : sep ∉ l) :
    splitAtFirstChar sep l = (l, none) := by
  induction l with
  | nil => rfl
  | cons c cs ih =>
    rw [List.mem_cons, not_or] at h
    rw [splitAtFirstChar, if_neg (fun hc => h.1 hc.symm), ih h.2]

theorem urlParse_no_query (u : String) (h1 : containsCTLByte u = false)
    (h2 : '?' ∉ u.data) : urlParse u = .ok ⟨u, ""⟩ := by
  rw [urlParse, if_neg (by rw [h1]; exact Bool.false_ne_true),
    splitAtFirstChar_of_not_mem _ _ h2]
  rfl

/-- The encoded query produced for resolved values `limitStr`, `afterStr`
and license class `lc`: parameters in the fixed order `after`,
`license_class` (when present), `limit`. -/
def releaseQuery (limitStr afterStr lc : String) : String :=
  String.intercalate "&"
    ([queryPair "after" afterStr] ++
      (if lc ≠ "" then [queryPair "license_class" lc] else []) ++
      [queryPair "limit" limitStr])

theorem releaseQuery_ne_empty (limitStr afterStr lc : String) :
    releaseQuery limitStr afterStr lc ≠ "" := by
  have hafter : queryPair "after" afterStr ≠ "" := by
    apply ne_empty_of_left
    apply ne_empty_of_left
    decide
  by_cases hlc : lc = ""
  · subst hlc
    show (queryPair "after" afterStr ++ "&" ++ queryPair "limit" limitStr) ≠ ""
    exact ne_empty_of_left _ _ (ne_empty_of_left _ _ hafter)
  · rw [releaseQuery, if_pos hlc]
    show (queryPair "after" afterStr ++ "&" ++ queryPair "license_class" lc ++ "&" ++
      queryPair "limit" limitStr) ≠ ""
    exact ne_empty_of_left _ _ (ne_empty_of_left _ _ (ne_empty_of_left _ _
      (ne_empty_of_left _ _ hafter)))

theorem render_eq (u q : String) (h : q ≠ "") : URL.render ⟨u, q⟩ = u ++ ("?" ++ q) := by
  rw [URL.render, if_neg h]

theorem encode_shape2 (ls as : String) :
    Values.encode [("limit", ls), ("after", as)] = releaseQuery ls as "" := rfl

theorem encode_shape3 (ls as lc : String) (h : lc ≠ "") :
    Values.encode [("limit", ls), ("after", as), ("license_class", lc)] =
      releaseQuery ls as lc := by
  rw [releaseQuery, if_pos h]
  rfl

/-- Canonical form of `handleReleaseOptions` on a non-nil options value and
a clean base URL: the base URL, a `?`, and the query `after=…`,
`license_class=…` (only when the license class is non-empty), `limit=…`,
with `limit` resolved to `Limit` when non-zero and `10` otherwise and
`after` resolved to `After` when non-empty and `now` otherwise. -/
theorem handleReleaseOptions_query (u now : String) (o : ReleaseOptions)
    (h1 : containsCTLByte u = false) (h2 : '?' ∉ u.data) :
    handleReleaseOptions u (some o) now =
      .ok (u ++ ("?" ++ releaseQuery
        (toString (if o.Limit ≠ 0 then o.Limit else 10))
        (if o.After ≠ "" then o.After else now)
        o.LicenseClass)) := by
  obtain ⟨L, A, lc⟩ := o
  rw [← render_eq u _ (releaseQuery_ne_empty _ _ _)]
  by_cases hlc : lc = ""
  · subst hlc
    rw [← encode_shape2, handleReleaseOptions, urlParse_no_query u h1 h2]
    rfl
  · rw [← encode_shape3 _ _ _ hlc, handleReleaseOptions, urlParse_no_query u h1 h2]
    show GoResult.ok (URL.render ⟨u, Values.encode
      (if lc ≠ "" then _ else _)⟩) = _
    rw [if_pos hlc]
    rfl

theorem char_toNat_ofNat {n : Nat} (h : n < 0xd800) : (Char.ofNat n).toNat = n := by
  simp [Char.ofNat, Nat.isValidChar, Char.ofNatAux, Char.toNat, h, UInt32.toNat,
    BitVec.toNat_ofNatLt]

theorem upperHexDigit_printable (n : Nat) :
    33 ≤ (upperHexDigit n).toNat ∧ (upperHexDigit n).toNat ≤ 126 := by
  unfold upperHexDigit
  split
  · rw [char_toNat_ofNat (by omega)]
    omega
  · split
    · rw [char_toNat_ofNat (by omega)]
      omega
    · decide

theorem escapeByte_printable (b : Nat) :
    ∀ c ∈ escapeByte b, 33 ≤ c.toNat ∧ c.toNat ≤ 126 := by
  intro c hc
  unfold escapeByte at hc
  split at hc
  · rename_i h
    have hb : 33 ≤ b ∧ b ≤ 126 := by
      unfold isUnreservedByte at h
      simp only [Bool.or_eq_true, Bool.and_eq_true, decide_eq_true_eq, beq_iff_eq] at h
      omega
    rw [List.mem_singleton] at hc
    subst hc
    rw [char_toNat_ofNat (by omega)]
    exact hb
  · split at hc
    · rw [List.mem_singleton] at hc
      subst hc
      decide
    · simp only [List.mem_cons, List.mem_singleton, List.not_mem_nil, or_false] at hc
      rcases hc with rfl | rfl | rfl
      · decide
      · exact upperHexDigit_printable _
      · exact upperHexDigit_printable _

theorem queryEscape_no_ctl (s : String) : containsCTLByte (queryEscape s) = false := by
  rw [containsCTLByte, List.any_eq_false]
  intro b hb
  have hb' : b ∈ ((((strBytes s).map escapeByte).flatten).map
      (fun c => utf8Bytes c.toNat)).flatten := hb
  rw [List.mem_flatten] at hb'
  obtain ⟨l, hl, hbl⟩ := hb'
  rw [List.mem_map] at hl
  obtain ⟨c, hc, rfl⟩ := hl
  obtain ⟨seg, hseg, hcseg⟩ := List.mem_flatten.mp hc
  obtain ⟨bt, _, rfl⟩ := List.mem_map.mp hseg
  have hpr := escapeByte_printable bt c hcseg
  have hone : utf8Bytes c.toNat = [c.toNat] := by
    unfold utf8Bytes
    rw [if_pos (by omega)]
  rw [hone, List.mem_singleton] at hbl
  subst hbl
  have h1 : ¬ (c.toNat < 32) := by omega
  have h2 : c.toNat ≠ 127 := by omega
  simp [h1, h2]

theorem containsCTLByte_append (a b : String) :
    containsCTLByte (a ++ b) = (containsCTLByte a || containsCTLByte b) := by
  unfold containsCTLByte strBytes
  rw [String.data_append, List.map_append, List.flatten_append, List.any_append]

theorem queryPair_no_ctl (k v : String) : containsCTLByte (queryPair k v) = false := by
  rw [queryPair, containsCTLByte_append, containsCTLByte_append,
    queryEscape_no_ctl, queryEscape_no_ctl, (by decide : containsCTLByte "=" = false)]
  rfl

theorem releaseQuery_no_ctl (ls as lc : String) :
    containsCTLByte (releaseQuery ls as lc) = false := by
  by_cases hlc : lc = ""
  · subst hlc
    show containsCTLByte ((queryPair "after" as ++ "&") ++ queryPair "limit" ls) = false
    rw [containsCTLByte_append, containsCTLByte_append, queryPair_no_ctl, queryPair_no_ctl,
      (by decide : containsCTLByte "&" = false)]
    rfl
  · rw [releaseQuery, if_pos hlc]
    show containsCTLByte ((((queryPair "after" as ++ "&") ++ queryPair "license_class" lc)
      ++ "&") ++ queryPair "limit" ls) = false
    rw [containsCTLByte_append, containsCTLByte_append, containsCTLByte_append,
      containsCTLByte_append, queryPair_no_ctl, queryPair_no_ctl, queryPair_no_ctl,
      (by decide : containsCTLByte "&" = false)]
    rfl

theorem fullURL_no_ctl (u ls as lc : String) (h : containsCTLByte u = false) :
    containsCTLByte (u ++ ("?" ++ releaseQuery ls as lc)) = false := by
  rw [containsCTLByte_append, containsCTLByte_append, h, releaseQuery_no_ctl,
    (by decide : containsCTLByte "?" = false)]
  rfl

theorem httpNewRequest_ok (method urlStr : String) (h : containsCTLByte urlStr = false) :
    httpNewRequest method urlStr = .ok ⟨method, urlStr, []⟩ := by
  rw [httpNewRequest, urlParse, if_neg (by rw [h]; exact Bool.false_ne_true)]

/-! ## Concrete fixtures for witnesses -/

/-- A client built with an empty environment: the default base URL. -/
def exampleClient : Client := NewClient (fun _ => "")

/-- A transport that refuses every request (its answer is irrelevant to
the properties it witnesses). -/
def failTransport : Transport := fun _ => .error "connection refused"

/-- A request fixture. -/
def exampleRequest : Request :=
  ⟨"GET", "https://api.releases.hashicorp.com/v1/products", []⟩

/-! ## Claims -/

/-- C1 (code_bug evidence): the claim — and §4.3/§8 of the spec — say a
call with an absent (nil) options value completes and encodes only `limit`
and `after`; the source instead reads `options.LicenseClass` outside its
nil guard, so once `url.Parse` has succeeded the call dereferences a nil
pointer and panics.  This theorem evaluates the embedding at the failing
input: `GetReleases` with nil options panics and sends no request. -/
theorem getReleases_nil_options_panics :
    GetReleases exampleClient "vault" none "2026-10-11T00:00:00Z" failTransport =
      (.panicked "runtime error: invalid memory address or nil pointer dereference",
        none) := by
  rfl

/-- C2: for every response with a non-200 status, `sendRequest` fails; when
the body decodes as an error object `{code:int, message:string}` the error
is `error: <message>; status code: <status>` (it carries the body's message
and the status code), and when the body does not decode the error is the
generic `unknown error, status code: <status>` (only the status code). -/
theorem sendRequest_non200_error {α : Type} (d : Json → Except String α)
    (req : Request) (status : Nat) (body : Option Json) (h200 : status ≠ 200) :
    (∀ er : errorResponse, decodeBody decodeErrorResponse body = .ok er →
      (sendRequest d (fun _ => .ok ⟨status, body⟩) req).1 =
        .error ("error: " ++ er.Message ++ "; status code: " ++ toString status)) ∧
    (∀ e, decodeBody decodeErrorResponse body = .error e →
      (sendRequest d (fun _ => .ok ⟨status, body⟩) req).1 =
        .error ("unknown error, status code: " ++ toString status)) := by
  constructor
  · intro er her
    rw [sendRequest]
    dsimp only
    rw [if_pos h200, her]
  · intro e he
    rw [sendRequest]
    dsimp only
    rw [if_pos h200, he]

theorem sendRequest_non200_error_witness :
    (sendRequest decodeProducts
        (fun _ => .ok ⟨500, some (.obj [("code", .num 500), ("message", .str "internal error")])⟩)
        exampleRequest).1 =
      .error "error: internal error; status code: 500" :=
  (sendRequest_non200_error decodeProducts exampleRequest 500
      (some (.obj [("code", .num 500), ("message", .str "internal error")]))
      (by decide)).1
    ⟨500, "internal error"⟩ (by decide)

/-- C5: status 200 is the only success status.  On a 200 response the body
is decoded into the caller-supplied destination and returned; a decode
failure on a 200 response yields `error decoding response body: <err>`
wrapping the parse error; and no non-200 response ever succeeds. -/
theorem sendRequest_200_success {α : Type} (d : Json → Except String α)
    (req : Request) (status : Nat) (body : Option Json) :
    (status = 200 → ∀ a, decodeBody d body = .ok a →
      (sendRequest d (fun _ => .ok ⟨status, body⟩) req).1 = .ok a) ∧
    (status = 200 → ∀ e, decodeBody d body = .error e →
      (sendRequest d (fun _ => .ok ⟨status, body⟩) req).1 =
        .error ("error decoding response body: " ++ e)) ∧
    (status ≠ 200 → ∀ a, (sendRequest d (fun _ => .ok ⟨status, body⟩) req).1 ≠ .ok a) := by
  refine ⟨?_, ?_, ?_⟩
  · intro h a ha
    subst h
    rw [sendRequest]
    dsimp only
    rw [if_neg (by omega), ha]
  · intro h e he
    subst h
    rw [sendRequest]
    dsimp only
    rw [if_neg (by omega), he]
  · intro h a
    rw [sendRequest]
    dsimp only
    rw [if_pos h]
    rcases decodeBody decodeErrorResponse body with e | er <;> dsimp only <;>
      exact fun hc => Except.noConfusion hc

theorem sendRequest_200_success_witness :
    (sendRequest decodeProducts
        (fun _ => .ok ⟨200, some (.arr [.str "terraform", .str "vault"])⟩)
        exampleRequest).1 = .ok ["terraform", "vault"] ∧
    (sendRequest decodeProducts (fun _ => .ok ⟨404, none⟩) exampleRequest).1 ≠
      .ok ["terraform", "vault"] :=
  ⟨(sendRequest_200_success decodeProducts exampleRequest 200
      (some (.arr [.str "terraform", .str "vault"]))).1 rfl _ (by decide),
    (sendRequest_200_success decodeProducts exampleRequest 404 none).2.2
      (by decide) _⟩

/-- C6: the client's base URL is the `RELEASES_URL` environment value when
non-empty and `https://api.releases.hashicorp.com/v1` when absent or
empty, and the HTTP transport timeout is 1 minute (60·10⁹ ns). -/
theorem NewClient_config (getenv : String → String) :
    (getenv "RELEASES_URL" = "" →
      (NewClient getenv).URL = "https://api.releases.hashicorp.com/v1") ∧
    (getenv "RELEASES_URL" ≠ "" → (NewClient getenv).URL = getenv "RELEASES_URL") ∧
    (NewClient getenv).HTTPClient.Timeout = 60000000000 := by
  refine ⟨?_, ?_, rfl⟩
  · intro h
    rw [NewClient]
    dsimp only
    rw [if_pos h]
  · intro h
    rw [NewClient]
    dsimp only
    rw [if_neg h]

theorem NewClient_config_witness :
    (NewClient (fun _ => "")).URL = "https://api.releases.hashicorp.com/v1" ∧
    (NewClient (fun _ => "http://localhost:8080/v1")).URL = "http://localhost:8080/v1" ∧
    (NewClient (fun _ => "")).HTTPClient.Timeout = 60000000000 :=
  ⟨(NewClient_config (fun _ => "")).1 rfl,
    (NewClient_config (fun _ => "http://localhost:8080/v1")).2.1 (by decide),
    (NewClient_config (fun _ => "")).2.2⟩

/-- C4: with a non-nil options value and a clean base URL,
`handleReleaseOptions` encodes `limit` as the stringified `Limit` when
non-zero (any value, including those above the documented maximum of 20)
and as `10` when zero, encodes `after` as `After` when non-empty and as
the current time `now` otherwise, and includes `license_class` exactly
when `LicenseClass` is non-empty. -/
theorem handleReleaseOptions_encoding (u now : String) (o : ReleaseOptions)
    (h1 : containsCTLByte u = false) (h2 : '?' ∉ u.data) :
    handleReleaseOptions u (some o) now =
      .ok (u ++ ("?" ++ String.intercalate "&"
        ([queryPair "after" (if o.After ≠ "" then o.After else now)] ++
          (if o.LicenseClass ≠ "" then [queryPair "license_class" o.LicenseClass] else []) ++
          [queryPair "limit" (toString (if o.Limit ≠ 0 then o.Limit else 10))]))) :=
  handleReleaseOptions_query u now o h1 h2

theorem handleReleaseOptions_encoding_witness :
    handleReleaseOptions "https://api.releases.hashicorp.com/v1/releases/vault"
        (some ⟨5, "2020-01-01T00:00:00Z", "oss"⟩) "2026-10-11T00:00:00Z" =
      .ok ("https://api.releases.hashicorp.com/v1/releases/vault" ++
        "?after=2020-01-01T00%3A00%3A00Z&license_class=oss&limit=5") ∧
    handleReleaseOptions "https://api.releases.hashicorp.com/v1/releases/vault"
        (some ⟨0, "", ""⟩) "2026-10-11T00:00:00Z" =
      .ok ("https://api.releases.hashicorp.com/v1/releases/vault" ++
        "?after=2026-10-11T00%3A00%3A00Z&limit=10") ∧
    handleReleaseOptions "https://api.releases.hashicorp.com/v1/releases/vault"
        (some ⟨25, "", ""⟩) "2026-10-11T00:00:00Z" =
      .ok ("https://api.releases.hashicorp.com/v1/releases/vault" ++
        "?after=2026-10-11T00%3A00%3A00Z&limit=25") := by
  refine ⟨?_, ?_, ?_⟩
  · rw [handleReleaseOptions_encoding _ _ _ (by decide) (by decide)]
    rfl
  · rw [handleReleaseOptions_encoding _ _ _ (by decide) (by decide)]
    rfl
  · rw [handleReleaseOptions_encoding _ _ _ (by decide) (by decide)]
    rfl

/-- C10: the query encoding is stable — two calls whose resolved limit,
after and license-class values agree produce the same encoded query
string, namely `releaseQuery`, whose keys appear in the fixed alphabetical
order `after`, `license_class` (when present), `limit`. -/
theorem handleReleaseOptions_stable (u₁ u₂ now₁ now₂ : String)
    (o₁ o₂ : ReleaseOptions)
    (h1 : containsCTLByte u₁ = false) (h1q : '?' ∉ u₁.data)
    (h2 : containsCTLByte u₂ = false) (h2q : '?' ∉ u₂.data)
    (hl : (if o₁.Limit ≠ 0 then o₁.Limit else 10) =
      (if o₂.Limit ≠ 0 then o₂.Limit else 10))
    (ha : (if o₁.After ≠ "" then o₁.After else now₁) =
      (if o₂.After ≠ "" then o₂.After else now₂))
    (hc : o₁.LicenseClass = o₂.LicenseClass) :
    ∃ q : String,
      handleReleaseOptions u₁ (some o₁) now₁ = .ok (u₁ ++ ("?" ++ q)) ∧
      handleReleaseOptions u₂ (some o₂) now₂ = .ok (u₂ ++ ("?" ++ q)) ∧
      q = String.intercalate "&"
        ([queryPair "after" (if o₁.After ≠ "" then o₁.After else now₁)] ++
          (if o₁.LicenseClass ≠ "" then [queryPair "license_class" o₁.LicenseClass] else []) ++
          [queryPair "limit" (toString (if o₁.Limit ≠ 0 then o₁.Limit else 10))]) := by
  refine ⟨_, handleReleaseOptions_query u₁ now₁ o₁ h1 h1q, ?_, rfl⟩
  rw [handleReleaseOptions_query u₂ now₂ o₂ h2 h2q, ← hl, ← ha, ← hc]

theorem handleReleaseOptions_stable_witness :
    ∃ q : String,
      handleReleaseOptions "https://api.releases.hashicorp.com/v1/releases/vault"
          (some ⟨0, "", "oss"⟩) "2026-01-01T00:00:00Z" =
        .ok ("https://api.releases.hashicorp.com/v1/releases/vault" ++ ("?" ++ q)) ∧
      handleReleaseOptions "https://api.releases.hashicorp.com/v1/releases/consul"
          (some ⟨10, "2026-01-01T00:00:00Z", "oss"⟩) "2027-05-05T12:00:00Z" =
        .ok ("https://api.releases.hashicorp.com/v1/releases/consul" ++ ("?" ++ q)) ∧
      q = String.intercalate "&"
        ([queryPair "after" "2026-01-01T00:00:00Z"] ++
          [queryPair "license_class" "oss"] ++ [queryPair "limit" "10"]) :=
  handleReleaseOptions_stable
    "https://api.releases.hashicorp.com/v1/releases/vault"
    "https://api.releases.hashicorp.com/v1/releases/consul"
    "2026-01-01T00:00:00Z" "2027-05-05T12:00:00Z"
    ⟨0, "", "oss"⟩ ⟨10, "2026-01-01T00:00:00Z", "oss"⟩
    (by decide) (by decide) (by decide) (by decide) (by decide) (by decide) rfl

/-- The request an endpoint has on the wire once `setJSONHeader` and
`sendRequest`'s `Accept` header have been applied: a GET of `urlStr` with
the two JSON headers. -/
def builtRequest (urlStr : String) : Request :=
  (setJSONHeader ⟨"GET", urlStr, []⟩).setHeader "Accept" "application/json; charset=utf-8"

theorem sendRequest_snd {α : Type} (d : Json → Except String α) (respond : Transport)
    (req : Request) :
    (sendRequest d respond req).2 =
      req.setHeader "Accept" "application/json; charset=utf-8" := by
  rw [sendRequest]
  rcases respond (req.setHeader "Accept" "application/json; charset=utf-8") with e | res
  · rfl
  · dsimp only
    split
    · split <;> rfl
    · split <;> rfl

theorem sendRequest_ok_of_200 {α : Type} (d : Json → Except String α)
    (respond : Transport) (req : Request) (body : Json) (a : α)
    (hresp : respond (req.setHeader "Accept" "application/json; charset=utf-8") =
      .ok ⟨200, some body⟩)
    (hdec : d body = .ok a) :
    (sendRequest d respond req).1 = .ok a := by
  rw [sendRequest]
  rw [hresp]
  dsimp only
  rw [if_neg (by omega)]
  show (match decodeBody d (some body) with
    | .ok a => (Except.ok a, _)
    | .error e => (.error ("error decoding response body: " ++ e), _)).1 = _
  rw [show decodeBody d (some body) = .ok a from hdec]

/-- C7: with a non-nil options value, `GetReleases` sends a GET request to
`{baseURL}/releases/{product}` with the encoded query appended (clean
inputs), and when URL construction fails — `url.Parse` rejects the
assembled URL — it returns exactly that error with no result and no
request is ever sent. -/
theorem GetReleases_request (c : Client) (product : String) (o : ReleaseOptions)
    (now : String) (respond : Transport) :
    (containsCTLByte (c.URL ++ "/releases/" ++ product) = false →
      '?' ∉ (c.URL ++ "/releases/" ++ product).data →
      ∃ req : Request,
        (GetReleases c product (some o) now respond).2 = some req ∧
        req.method = "GET" ∧
        req.url = c.URL ++ "/releases/" ++ product ++ ("?" ++ releaseQuery
          (toString (if o.Limit ≠ 0 then o.Limit else 10))
          (if o.After ≠ "" then o.After else now) o.LicenseClass)) ∧
    (∀ e, urlParse (c.URL ++ "/releases/" ++ product) = .error e →
      GetReleases c product (some o) now respond = (.err e, none)) := by
  constructor
  · intro h1 h2
    rw [GetReleases, handleReleaseOptions_query _ _ _ h1 h2]
    dsimp only
    rw [httpNewRequest_ok _ _ (fullURL_no_ctl _ _ _ _ h1)]
    dsimp only
    rcases hsr : sendRequest decodeReleases respond (setJSONHeader
      ⟨"GET", c.URL ++ "/releases/" ++ product ++ ("?" ++ releaseQuery
        (toString (if o.Limit ≠ 0 then o.Limit else 10))
        (if o.After ≠ "" then o.After else now) o.LicenseClass), []⟩) with ⟨res, sent⟩
    have hsent : sent = builtRequest (c.URL ++ "/releases/" ++ product ++
        ("?" ++ releaseQuery (toString (if o.Limit ≠ 0 then o.Limit else 10))
          (if o.After ≠ "" then o.After else now) o.LicenseClass)) := by
      have := sendRequest_snd decodeReleases respond (setJSONHeader
        ⟨"GET", c.URL ++ "/releases/" ++ product ++ ("?" ++ releaseQuery
          (toString (if o.Limit ≠ 0 then o.Limit else 10))
          (if o.After ≠ "" then o.After else now) o.LicenseClass), []⟩)
      rw [hsr] at this
      exact this
    refine ⟨sent, ?_, ?_, ?_⟩
    · cases res <;> rfl
    · rw [hsent]
      rfl
    · rw [hsent]
      rfl
  · intro e he
    rw [GetReleases, handleReleaseOptions, he]

theorem GetReleases_request_witness :
    (∃ req : Request,
      (GetReleases exampleClient "vault" (some ⟨5, "2020-01-01T00:00:00Z", "oss"⟩)
          "2026-10-11T00:00:00Z" failTransport).2 = some req ∧
      req.method = "GET" ∧
      req.url = "https://api.releases.hashicorp.com/v1/releases/vault" ++
        ("?" ++ "after=2020-01-01T00%3A00%3A00Z&license_class=oss&limit=5")) ∧
    GetReleases exampleClient "bad\nproduct" (some ⟨5, "2020-01-01T00:00:00Z", "oss"⟩)
        "2026-10-11T00:00:00Z" failTransport =
      (.err ("parse https://api.releases.hashicorp.com/v1/releases/bad\nproduct" ++
        ": net/url: invalid control character in URL"), none) :=
  ⟨(GetReleases_request exampleClient "vault" ⟨5, "2020-01-01T00:00:00Z", "oss"⟩
      "2026-10-11T00:00:00Z" failTransport).1 (by decide) (by decide),
    (GetReleases_request exampleClient "bad\nproduct" ⟨5, "2020-01-01T00:00:00Z", "oss"⟩
      "2026-10-11T00:00:00Z" failTransport).2 _ (by decide)⟩

/-- C8: `GetReleaseMetadata` sends a GET request to
`{baseURL}/releases/{product}/{version}`, and on a 200 response whose body
decodes as a Release it returns that Release — in particular the body's
`version` field comes back in the `Version` field. -/
theorem GetReleaseMetadata_request (c : Client) (product version : String)
    (respond : Transport)
    (h : containsCTLByte (c.URL ++ "/releases/" ++ product ++ "/" ++ version) = false) :
    ∃ req : Request,
      (GetReleaseMetadata c product version respond).2 = some req ∧
      req.method = "GET" ∧
      req.url = c.URL ++ "/releases/" ++ product ++ "/" ++ version ∧
      (∀ body r, respond req = .ok ⟨200, some body⟩ → decodeRelease body = .ok r →
        (GetReleaseMetadata c product version respond).1 = .ok r) := by
  rw [GetReleaseMetadata, httpNewRequest_ok _ _ h]
  dsimp only
  rcases hsr : sendRequest decodeRelease respond (setJSONHeader
    ⟨"GET", c.URL ++ "/releases/" ++ product ++ "/" ++ version, []⟩) with ⟨res, sent⟩
  have hsent : sent = builtRequest (c.URL ++ "/releases/" ++ product ++ "/" ++ version) := by
    have := sendRequest_snd decodeRelease respond (setJSONHeader
      ⟨"GET", c.URL ++ "/releases/" ++ product ++ "/" ++ version, []⟩)
    rw [hsr] at this
    exact this
  refine ⟨sent, ?_, ?_, ?_, ?_⟩
  · cases res <;> rfl
  · rw [hsent]
    rfl
  · rw [hsent]
    rfl
  · intro body r hresp hdec
    rw [hsent] at hresp
    have hresp' : respond ((setJSONHeader ⟨"GET",
        c.URL ++ "/releases/" ++ product ++ "/" ++ version, []⟩).setHeader
          "Accept" "application/json; charset=utf-8") = .ok ⟨200, some body⟩ := hresp
    have h1 : (sendRequest decodeRelease respond (setJSONHeader
        ⟨"GET", c.URL ++ "/releases/" ++ product ++ "/" ++ version, []⟩)).1 = .ok r :=
      sendRequest_ok_of_200 decodeRelease respond _ body r hresp' hdec
    rw [hsr] at h1
    dsimp only at h1
    subst h1
    rfl

/-- The Release decoded from a minimal body `{"version":"1.2.3"}`: every
other field keeps its zero value. -/
def minimalRelease : Release :=
  ⟨[], "", false, "", "", ⟨"", "", ""⟩, "", "", "", "", "", "", "", "", "", "", [], "", "1.2.3"⟩

theorem GetReleaseMetadata_request_witness :
    (GetReleaseMetadata exampleClient "vault" "1.2.3"
        (fun _ => .ok ⟨200, some (.obj [("version", .str "1.2.3")])⟩)).1 =
      .ok minimalRelease ∧
    minimalRelease.Version = "1.2.3" := by
  obtain ⟨req, hsome, hm, hu, hok⟩ := GetReleaseMetadata_request exampleClient "vault" "1.2.3"
    (fun _ => .ok ⟨200, some (.obj [("version", .str "1.2.3")])⟩) (by decide)
  exact ⟨hok _ _ rfl (by decide), rfl⟩

theorem decodeProducts_map_str (names : List String) :
    decodeProducts (.arr (names.map .str)) = .ok names := by
  show (names.map Json.str).mapM asString = .ok names
  induction names with
  | nil => rfl
  | cons n ns ih =>
    rw [List.map_cons, List.mapM_cons, ih]
    rfl

/-- C9: `GetProducts` sends a GET request to `{baseURL}/products`, and on
a 200 response whose body is a JSON array of strings it returns exactly
that list of product names. -/
theorem GetProducts_request (c : Client) (respond : Transport)
    (h : containsCTLByte (c.URL ++ "/products") = false) :
    ∃ req : Request,
      (GetProducts c respond).2 = some req ∧
      req.method = "GET" ∧
      req.url = c.URL ++ "/products" ∧
      (∀ names : List String, respond req = .ok ⟨200, some (.arr (names.map .str))⟩ →
        (GetProducts c respond).1 = .ok names) := by
  rw [GetProducts, httpNewRequest_ok _ _ h]
  dsimp only
  rcases hsr : sendRequest decodeProducts respond (setJSONHeader
    ⟨"GET", c.URL ++ "/products", []⟩) with ⟨res, sent⟩
  have hsent : sent = builtRequest (c.URL ++ "/products") := by
    have := sendRequest_snd decodeProducts respond (setJSONHeader
      ⟨"GET", c.URL ++ "/products", []⟩)
    rw [hsr] at this
    exact this
  refine ⟨sent, ?_, ?_, ?_, ?_⟩
  · cases res <;> rfl
  · rw [hsent]
    rfl
  · rw [hsent]
    rfl
  · intro names hresp
    rw [hsent] at hresp
    have hresp' : respond ((setJSONHeader ⟨"GET", c.URL ++ "/products", []⟩).setHeader
        "Accept" "application/json; charset=utf-8") =
      .ok ⟨200, some (.arr (names.map .str))⟩ := hresp
    have h1 : (sendRequest decodeProducts respond (setJSONHeader
        ⟨"GET", c.URL ++ "/products", []⟩)).1 = .ok names :=
      sendRequest_ok_of_200 decodeProducts respond _ _ names hresp'
        (decodeProducts_map_str names)
    rw [hsr] at h1
    dsimp only at h1
    subst h1
    rfl

theorem GetProducts_request_witness :
    (GetProducts exampleClient
        (fun _ => .ok ⟨200, some (.arr [.str "terraform", .str "vault"])⟩)).1 =
      .ok ["terraform", "vault"] := by
  obtain ⟨req, hsome, hm, hu, hok⟩ := GetProducts_request exampleClient
    (fun _ => .ok ⟨200, some (.arr [.str "terraform", .str "vault"])⟩) (by decide)
  exact hok ["terraform", "vault"] rfl

/-! ## A fully-populated Release body (for the round-trip claim) -/

/-- A well-formed Release JSON body carrying every documented key with the
names the remote API serves — in particular `url_source_repository` and a
`status` object with `message`, `state` and `timestamp_updated`. -/
def exampleReleaseFields : List (String × Json) :=
  [("builds", .arr [.obj [("arch", .str "amd64"), ("os", .str "linux"),
      ("unsupported", .bool false),
      ("url", .str "https://releases.hashicorp.com/vault/1.2.3/vault_1.2.3_linux_amd64.zip")]]),
   ("docker_name_tag", .str "vault:1.2.3"),
   ("is_prerelease", .bool false),
   ("license_class", .str "oss"),
   ("name", .str "vault"),
   ("status", .obj [("message", .str "supported release"), ("state", .str "supported"),
      ("timestamp_updated", .str "2021-05-04T00:00:00Z")]),
   ("timestamp_created", .str "2019-07-30T00:00:00Z"),
   ("timestamp_updated", .str "2019-08-30T00:00:00Z"),
   ("url_blogpost", .str "https://www.hashicorp.com/blog/vault-1-2"),
   ("url_changelog", .str "https://github.com/hashicorp/vault/blob/main/CHANGELOG.md"),
   ("url_docker_registry_dockerhub", .str "https://hub.docker.com/r/hashicorp/vault"),
   ("url_docker_registry_ecr", .str "https://gallery.ecr.aws/hashicorp/vault"),
   ("url_license", .str "https://github.com/hashicorp/vault/blob/main/LICENSE"),
   ("url_project_website", .str "https://www.vaultproject.io"),
   ("url_release_notes", .str "https://developer.hashicorp.com/vault/docs/release-notes"),
   ("url_shasums", .str "https://releases.hashicorp.com/vault/1.2.3/vault_1.2.3_SHA256SUMS"),
   ("url_shasums_signatures",
     .arr [.str "https://releases.hashicorp.com/vault/1.2.3/vault_1.2.3_SHA256SUMS.sig"]),
   ("url_source_repository", .str "https://github.com/hashicorp/vault"),
   ("version", .str "1.2.3")]

/-- What the source actually decodes from `exampleReleaseFields`: every
field comes back verbatim except `SourceRepositoryURL` (the struct tag is
misspelled `url_sorce_repository`, so the documented key
`url_source_repository` never matches) and `Status.TimestampUpdated` (the
`Status` struct has no json tags and the field name `TimestampUpdated`
does not fold-match the key `timestamp_updated`), which both stay zero. -/
def exampleDecodedRelease : Release :=
  ⟨[⟨"amd64", "linux", false,
      "https://releases.hashicorp.com/vault/1.2.3/vault_1.2.3_linux_amd64.zip"⟩],
   "vault:1.2.3", false, "oss", "vault", ⟨"supported release", "supported", ""⟩,
   "2019-07-30T00:00:00Z", "2019-08-30T00:00:00Z",
   "https://www.hashicorp.com/blog/vault-1-2",
   "https://github.com/hashicorp/vault/blob/main/CHANGELOG.md",
   "https://hub.docker.com/r/hashicorp/vault",
   "https://gallery.ecr.aws/hashicorp/vault",
   "https://github.com/hashicorp/vault/blob/main/LICENSE",
   "https://www.vaultproject.io",
   "https://developer.hashicorp.com/vault/docs/release-notes",
   "https://releases.hashicorp.com/vault/1.2.3/vault_1.2.3_SHA256SUMS",
   ["https://releases.hashicorp.com/vault/1.2.3/vault_1.2.3_SHA256SUMS.sig"],
   "", "1.2.3"⟩

/-- C3 (code_bug evidence): the claim — and §8 of the spec — promise
verbatim round-trip fidelity for every documented key, including
`url_source_repository` and the status sub-object's `timestamp_updated`.
Evaluating the embedding on a 200 response whose body carries all those
keys: the JSON holds `url_source_repository =
"https://github.com/hashicorp/vault"` and `status.timestamp_updated =
"2021-05-04T00:00:00Z"`, yet the decoded Release has an empty
`SourceRepositoryURL` (the source's struct tag is misspelled
`url_sorce_repository`) and an empty `Status.TimestampUpdated` (the
`Status` struct lacks json tags), while the other fields do round-trip. -/
theorem release_roundtrip_divergence :
    (GetReleaseMetadata exampleClient "vault" "1.2.3"
        (fun _ => .ok ⟨200, some (.obj exampleReleaseFields)⟩)).1 =
      .ok exampleDecodedRelease ∧
    lookupField exampleReleaseFields "url_source_repository" =
      some (.str "https://github.com/hashicorp/vault") ∧
    exampleDecodedRelease.SourceRepositoryURL = "" ∧
    exampleDecodedRelease.Status.TimestampUpdated = "" ∧
    exampleDecodedRelease.Version = "1.2.3" ∧
    exampleDecodedRelease.Status.Message = "supported release" ∧
    exampleDecodedRelease.Status.State = "supported" :=
  ⟨rfl, rfl, rfl, rfl, rfl, rfl, rfl⟩

end HashicorpReleases
